import Mathlib

/-!
A shallow embedding of the "sum-stack" puzzle game engine.

The source is a React component; all game logic lives in a handful of pure
computations over the component state (grid, target, selectedIds, score,
gameOver, isPaused, mode, timeLeft, combo).  We embed those computations as
pure Lean functions over an explicit `GameState` record.  Randomness
(`Math.random()` in `createBlock`, `generateTarget` and id generation) is
injected: each random outcome enters the model as an explicit parameter,
constrained only by what the source guarantees about it (e.g. the shuffled
list used by `generateTarget` is some permutation of the flattened grid).
-/

namespace SumStack

/-- `GRID_ROWS` from `types.ts`. -/
def GRID_ROWS : Nat := 10

/-- `GRID_COLS` from `types.ts`. -/
def GRID_COLS : Nat := 7

/-- `INITIAL_ROWS` from `types.ts`. -/
def INITIAL_ROWS : Nat := 4

/-- `MAX_VALUE` from `types.ts`. -/
def MAX_VALUE : Nat := 9

/-- `TIME_LIMIT` from `types.ts` (seconds per round in time mode). -/
def TIME_LIMIT : Nat := 10

/-- `Block` from `types.ts`: `{ id, value, row, col }`.  `row`/`col` are JS
numbers mutated by shifting and gravity; we model them as `Int`. -/
structure Block where
  id : String
  value : Nat
  row : Int
  col : Int
deriving DecidableEq, Repr

/-- `GameMode` from `types.ts`: `'classic' | 'time'`. -/
inductive GameMode where
  | classic
  | time
deriving DecidableEq, Repr

/-- The component state relevant to the game engine: the `useState` cells
`grid`, `target`, `selectedIds`, `score`, `gameOver`, `isPaused`, `mode`,
`timeLeft`, `combo`.  The grid is stored exactly as in the source: a list of
row-lists of blocks (empty row-lists are pruned by `clearAndCompact`). -/
structure GameState where
  grid : List (List Block)
  target : Nat
  selectedIds : List String
  score : Nat
  gameOver : Bool
  isPaused : Bool
  mode : GameMode
  timeLeft : Nat
  combo : Nat
deriving DecidableEq, Repr

/-- `createBlock(row, col)` from the source, with the two random draws
(the id string and the value `Math.floor(Math.random() * MAX_VALUE) + 1`)
injected as parameters. -/
def createBlock (id : String) (value : Nat) (row col : Int) : Block :=
  { id := id, value := value, row := row, col := col }

/-- `generateTarget(currentGrid)`: if the flattened grid is empty, return 10;
otherwise return the sum of the values of the first `count` elements of a
random shuffle of the flattened grid, where `count = Math.floor(Math.random()*3)+2`.
The random draws are injected: `count` is the random size and `shuffled` the
randomly shuffled copy `[...flat].sort(() => 0.5 - Math.random())`, which is
always some permutation of `flat`. -/
def generateTarget (grid : List (List Block)) (count : Nat) (shuffled : List Block) : Nat :=
  let flat := grid.flatten
  if flat.isEmpty then 10
  else (((shuffled.take count).map (fun b => b.value)).sum)

/-- The blocks that survive a clear: `prev.flat().filter(b => !selectedIds.includes(b.id))`. -/
def remainingBlocks (grid : List (List Block)) (clearedIds : List String) : List Block :=
  grid.flatten.filter (fun b => !(clearedIds.contains b.id))

/-- The comparison used by `.sort((a, b) => b.row - a.row)`: `a` comes before
`b` when `a.row ≥ b.row` (descending row order). -/
def rowGE (a b : Block) : Prop := b.row ≤ a.row

instance : DecidableRel rowGE := fun a b => inferInstanceAs (Decidable (b.row ≤ a.row))

instance : IsTotal Block rowGE := ⟨fun a b => le_total b.row a.row⟩

instance : IsTrans Block rowGE := ⟨fun _ _ _ h h' => le_trans h' h⟩

/-- `colBlocks.sort((a, b) => b.row - a.row)`: JavaScript `Array.prototype.sort`
is stable, so its result is the stable descending-by-row reordering; we model
it as a stable insertion sort with respect to `rowGE`. -/
def sortByRowDesc (l : List Block) : List Block :=
  List.insertionSort rowGE l

/-- The `colBlocks.forEach((block, index) => { newRow = GRID_ROWS - 1 - index; ... })`
re-rowing: the `i`-th block of the list receives row `r - i`. -/
def assignRows : List Block → Int → List Block
  | [], _ => []
  | b :: bs, r => { b with row := r } :: assignRows bs (r - 1)

/-- The per-column gravity pass of the clear: filter the survivors of column
`c`, sort them by descending original row (bottom-most first) and reassign
consecutive rows from `GRID_ROWS - 1` upward. -/
def gravityColumn (rem : List Block) (c : Int) : List Block :=
  assignRows (sortByRowDesc (rem.filter (fun b => b.col == c))) ((GRID_ROWS : Int) - 1)

/-- The `setGrid` update of the success branch: remove the selected blocks,
apply gravity per column (pushing each re-rowed block into `newGrid[newRow]`
while iterating columns left to right), then drop empty rows
(`newGrid.filter(row => row.length > 0)`). -/
def clearAndCompact (grid : List (List Block)) (clearedIds : List String) : List (List Block) :=
  let rem := remainingBlocks grid clearedIds
  let newGrid := (List.range GRID_ROWS).map (fun r =>
    (List.range GRID_COLS).flatMap (fun c =>
      (gravityColumn rem (c : Int)).filter (fun b => b.row == (r : Int))))
  newGrid.filter (fun row => !row.isEmpty)

/-- The brand-new bottom row built by `addNewRow`:
`for (col = 0; col < GRID_COLS; col++) newRow.push(createBlock(GRID_ROWS - 1, col))`.
`F` injects the random id and value drawn by `createBlock` for each column. -/
def newRowBlocks (F : Nat → String × Nat) : List Block :=
  (List.range GRID_COLS).map (fun c => createBlock (F c).1 (F c).2 ((GRID_ROWS : Int) - 1) (c : Int))

/-- The game-over test of `addNewRow`:
`prev.some(row => row.length > 0 && row[0].row === 0)`. -/
def rowOccupiesTop (row : List Block) : Bool :=
  match row with
  | [] => false
  | b :: _ => b.row == 0

/-- `addNewRow` from the source, at state level: if some row-list starts with a
block at row 0, set `gameOver` and leave the grid alone; otherwise shift every
block up one row and append a fully populated new bottom row. -/
def addNewRow (F : Nat → String × Nat) (s : GameState) : GameState :=
  if s.grid.any rowOccupiesTop then
    { s with gameOver := true }
  else
    { s with grid :=
        s.grid.map (fun row => row.map (fun b => { b with row := b.row - 1 })) ++ [newRowBlocks F] }

/-- `startGame(selectedMode)`: resets score, gameOver, pause, combo and
timeLeft, builds the initial grid and first target, and clears the selection.
The initial grid and target are produced by `createBlock` / `generateTarget`
randomness; their outcomes enter the model as the parameters `g` and `tgt`. -/
def startState (m : GameMode) (tgt : Nat) (g : List (List Block)) : GameState :=
  { grid := g, target := tgt, selectedIds := [], score := 0,
    gameOver := false, isPaused := false, mode := m,
    timeLeft := TIME_LIMIT, combo := 1 }

/-- The currently selected blocks:
`grid.flat().filter(b => selectedIds.includes(b.id))`. -/
def selectedBlocks (s : GameState) : List Block :=
  s.grid.flatten.filter (fun b => s.selectedIds.contains b.id)

/-- The sum of the values of the currently selected blocks. -/
def selectionSum (s : GameState) : Nat :=
  ((selectedBlocks s).map (fun b => b.value)).sum

/-- The "check sum" evaluation effect.  On success (`currentSum === target`
and `target !== 0`): add `target * selectedBlocks.length * combo` to the
score, clear and compact the grid, reset the selection, regenerate the target
(its random outcome is the parameter `tNew`), then run the mode-specific
follow-up (classic: `addNewRow`, with fresh-block randomness `F`; time: reset
`timeLeft` and bump `combo` capped at 5).  On bust (`currentSum > target`):
reset selection and combo.  Otherwise no transition. -/
def checkSum (tNew : Nat) (F : Nat → String × Nat) (s : GameState) : GameState :=
  let blocks := selectedBlocks s
  let currentSum := (blocks.map (fun b => b.value)).sum
  if currentSum = s.target ∧ s.target ≠ 0 then
    let points := s.target * blocks.length * s.combo
    let cleared := { s with
      score := s.score + points,
      grid := clearAndCompact s.grid s.selectedIds,
      selectedIds := [],
      target := tNew }
    if s.mode = GameMode.classic then
      addNewRow F cleared
    else
      { cleared with timeLeft := TIME_LIMIT, combo := min (s.combo + 1) 5 }
  else if s.target < currentSum then
    { s with selectedIds := [], combo := 1 }
  else s

/-- The `setSelectedIds` update of `handleBlockClick`: remove the id if
present, append it otherwise. -/
def toggleId (id : String) (l : List String) : List String :=
  if l.contains id then l.filter (fun i => !(i == id)) else l ++ [id]

/-- `handleBlockClick` followed by the "check sum" evaluation effect that
reacts to the selection change.  A click is ignored while paused or over. -/
def toggleSelect (id : String) (tNew : Nat) (F : Nat → String × Nat) (s : GameState) : GameState :=
  if s.gameOver || s.isPaused then s
  else checkSum tNew F { s with selectedIds := toggleId id s.selectedIds }

/-- One tick of the time-mode interval: active only while in time mode,
not over and not paused.  When the countdown would reach zero
(`prev <= 1`), it invokes `addNewRow`, resets `combo` to 1 and returns
`TIME_LIMIT`; otherwise it returns `prev - 1`. -/
def tick (F : Nat → String × Nat) (s : GameState) : GameState :=
  if s.mode = GameMode.time ∧ s.gameOver = false ∧ s.isPaused = false then
    if s.timeLeft ≤ 1 then
      { addNewRow F s with combo := 1, timeLeft := TIME_LIMIT }
    else
      { s with timeLeft := s.timeLeft - 1 }
  else s

/-- The pause button: `setIsPaused(!isPaused)`. -/
def togglePause (s : GameState) : GameState :=
  { s with isPaused := !s.isPaused }

/-- The events that drive the engine during a round: a block click (with the
random outcomes a resulting success would consume), a timer tick (with the
random outcomes a resulting `addNewRow` would consume) and the pause button. -/
inductive Ev where
  | select (id : String) (tNew : Nat) (F : Nat → String × Nat)
  | timer (F : Nat → String × Nat)
  | pauseBtn

/-- The transition function of the engine. -/
def step : Ev → GameState → GameState
  | .select id tNew F, s => toggleSelect id tNew F s
  | .timer F, s => tick F s
  | .pauseBtn, s => togglePause s

/-- Run a sequence of events from a state. -/
def run (es : List Ev) (s : GameState) : GameState :=
  es.foldl (fun t e => step e t) s

/-- The states reachable within one round: `startGame` followed by any
sequence of clicks, ticks and pauses.  The random outcomes of `startGame`
(initial grid, first target) and of the events are universally quantified,
over-approximating the truly reachable set. -/
inductive Reachable (m : GameMode) : GameState → Prop where
  | start (tgt : Nat) (g : List (List Block)) : Reachable m (startState m tgt g)
  | next (e : Ev) {s : GameState} : Reachable m s → Reachable m (step e s)

/-- Like `Reachable`, but clicks only ever happen on blocks actually present
in the grid — which is how the UI invokes `handleBlockClick`: the click
handlers are attached to the rendered grid blocks. -/
inductive ReachableUI (m : GameMode) : GameState → Prop where
  | start (tgt : Nat) (g : List (List Block)) : ReachableUI m (startState m tgt g)
  | select {s : GameState} (b : Block) (tNew : Nat) (F : Nat → String × Nat)
      (hb : b ∈ s.grid.flatten) : ReachableUI m s → ReachableUI m (toggleSelect b.id tNew F s)
  | timer {s : GameState} (F : Nat → String × Nat) :
      ReachableUI m s → ReachableUI m (tick F s)
  | pauseBtn {s : GameState} : ReachableUI m s → ReachableUI m (togglePause s)

/-- The identifying data of a block that clearing must preserve: id, value
and column (only the row is reassigned by gravity). -/
def strip (b : Block) : String × Nat × Int :=
  (b.id, b.value, b.col)

/-! ### Helper lemmas about the grid operations -/

theorem flatten_filter_not_isEmpty (l : List (List Block)) :
    (l.filter (fun row => !row.isEmpty)).flatten = l.flatten := by
  induction l with
  | nil => rfl
  | cons r t ih =>
    by_cases hr : r.isEmpty
    · have hr' : r = [] := List.isEmpty_iff.mp hr
      simp [List.filter_cons, hr, hr', ih]
    · simp [List.filter_cons, hr, ih]

theorem assignRows_length (l : List Block) (r : Int) :
    (assignRows l r).length = l.length := by
  induction l generalizing r with
  | nil => rfl
  | cons b t ih => simp [assignRows, ih]

theorem assignRows_map_strip (l : List Block) (r : Int) :
    (assignRows l r).map strip = l.map strip := by
  induction l generalizing r with
  | nil => rfl
  | cons b t ih => simp [assignRows, strip, ih]

theorem mem_assignRows_row {b : Block} {l : List Block} {r : Int}
    (h : b ∈ assignRows l r) : r - l.length < b.row ∧ b.row ≤ r := by
  induction l generalizing r with
  | nil => simp [assignRows] at h
  | cons x t ih =>
    simp only [assignRows, List.mem_cons] at h
    rcases h with h | h
    · subst h
      simp only [List.length_cons]
      constructor
      · push_cast; omega
      · exact le_refl r
    · have := ih h
      simp only [List.length_cons]
      push_cast
      omega

theorem assignRows_pairwise (l : List Block) (r : Int) :
    (assignRows l r).Pairwise (fun a b => b.row < a.row) := by
  induction l generalizing r with
  | nil => exact List.Pairwise.nil
  | cons x t ih =>
    refine List.Pairwise.cons ?_ (ih (r - 1))
    intro b hb
    have := mem_assignRows_row hb
    simp only
    omega

theorem mem_map_strip {b : Block} {l : List Block} (h : b ∈ l) : strip b ∈ l.map strip :=
  List.mem_map_of_mem strip h

theorem of_mem_map_strip {b : Block} {l : List Block} (h : strip b ∈ l.map strip) :
    ∃ b' ∈ l, b'.id = b.id ∧ b'.value = b.value ∧ b'.col = b.col := by
  rcases List.mem_map.mp h with ⟨b', hb', he⟩
  simp only [strip, Prod.mk.injEq] at he
  exact ⟨b', hb', he.1, he.2.1, he.2.2⟩

theorem sortByRowDesc_perm (l : List Block) : (sortByRowDesc l).Perm l :=
  List.perm_insertionSort rowGE l

theorem sortByRowDesc_sorted (l : List Block) :
    (sortByRowDesc l).Pairwise rowGE :=
  List.sorted_insertionSort rowGE l

theorem gravityColumn_map_strip (rem : List Block) (c : Int) :
    ((gravityColumn rem c).map strip).Perm ((rem.filter (fun b => b.col == c)).map strip) := by
  unfold gravityColumn
  rw [assignRows_map_strip]
  exact (sortByRowDesc_perm _).map strip

theorem mem_gravityColumn_col {b : Block} {rem : List Block} {c : Int}
    (h : b ∈ gravityColumn rem c) : b.col = c := by
  have hs : strip b ∈ (gravityColumn rem c).map strip := mem_map_strip h
  have hs' := (gravityColumn_map_strip rem c).mem_iff.mp hs
  rcases of_mem_map_strip hs' with ⟨b', hb', _, _, hcol⟩
  have := List.of_mem_filter hb'
  have : b'.col = c := by simpa [beq_iff_eq] using this
  omega

theorem gravityColumn_length (rem : List Block) (c : Int) :
    (gravityColumn rem c).length = (rem.filter (fun b => b.col == c)).length := by
  unfold gravityColumn
  rw [assignRows_length]
  exact (sortByRowDesc_perm _).length_eq

theorem mem_gravityColumn_row {b : Block} {rem : List Block} {c : Int}
    (h : b ∈ gravityColumn rem c) :
    (GRID_ROWS : Int) - 1 - (rem.filter (fun b => b.col == c)).length < b.row ∧
      b.row ≤ (GRID_ROWS : Int) - 1 := by
  unfold gravityColumn at h
  have hb := mem_assignRows_row h
  have hlen : (sortByRowDesc (rem.filter (fun b => b.col == c))).length
      = (rem.filter (fun b => b.col == c)).length :=
    (sortByRowDesc_perm _).length_eq
  rw [hlen] at hb
  omega

theorem gravityColumn_pairwise (rem : List Block) (c : Int) :
    (gravityColumn rem c).Pairwise (fun a b => b.row < a.row) :=
  assignRows_pairwise _ _

/-- Scanning the row indices `0, …, R-1` in order and collecting, for each,
the blocks of `L` sitting at that row reconstructs `L` bottom-up, provided the
rows of `L` are strictly decreasing and within range. -/
theorem flatMap_range_filter_row (R : Nat) (L : List Block)
    (hp : L.Pairwise (fun a b => b.row < a.row))
    (hmem : ∀ b ∈ L, 0 ≤ b.row ∧ b.row < (R : Int)) :
    (List.range R).flatMap (fun r => L.filter (fun b => b.row == (r : Int))) = L.reverse := by
  induction R generalizing L with
  | zero =>
    cases L with
    | nil => rfl
    | cons b t =>
      exfalso
      have h := hmem b (List.mem_cons_self b t)
      push_cast at h
      omega
  | succ R ih =>
    rw [List.range_succ, List.flatMap_append]
    simp only [List.flatMap_cons, List.flatMap_nil, List.append_nil]
    cases L with
    | nil => simp
    | cons b t =>
      have hbt : ∀ x ∈ t, x.row < b.row := by
        intro x hx
        exact (List.pairwise_cons.mp hp).1 x hx
      have hpt : t.Pairwise (fun a b => b.row < a.row) := (List.pairwise_cons.mp hp).2
      have hbR : b.row < ((R : Nat) : Int) + 1 := by
        have h := hmem b (List.mem_cons_self b t)
        push_cast at h
        omega
      by_cases hb : b.row = ((R : Nat) : Int)
      · have hfR : (b :: t).filter (fun x => x.row == ((R : Nat) : Int)) = [b] := by
          rw [List.filter_cons]
          simp only [hb, beq_self_eq_true, if_pos]
          have ht0 : t.filter (fun x => x.row == ((R : Nat) : Int)) = [] := by
            apply List.filter_eq_nil_iff.mpr
            intro x hx
            simp only [beq_iff_eq]
            have hx2 : x.row < ((R : Nat) : Int) := by
              rw [← hb]; exact hbt x hx
            omega
          simp [ht0]
        have hcong : (List.range R).flatMap
              (fun r => (b :: t).filter (fun x => x.row == (r : Int)))
            = (List.range R).flatMap (fun r => t.filter (fun x => x.row == (r : Int))) := by
          apply List.flatMap_congr
          intro r hr
          have hrR : r < R := List.mem_range.mp hr
          rw [List.filter_cons]
          have hne : ¬(b.row == (r : Int)) = true := by
            simp only [beq_iff_eq, hb]
            intro hc
            have : R = r := by exact_mod_cast hc
            omega
          simp [hne]
        have htmem : ∀ x ∈ t, 0 ≤ x.row ∧ x.row < ((R : Nat) : Int) := by
          intro x hx
          have h1 := hmem x (List.mem_cons_of_mem b hx)
          have h2 := hbt x hx
          constructor
          · omega
          · omega
        rw [hcong, ih t hpt htmem, hfR]
        simp
      · have hbR' : b.row < ((R : Nat) : Int) := by omega
        have hall : ∀ x ∈ b :: t, 0 ≤ x.row ∧ x.row < ((R : Nat) : Int) := by
          intro x hx
          have h1 := hmem x hx
          rcases List.mem_cons.mp hx with h | h
          · subst h
            exact ⟨h1.1, hbR'⟩
          · have h2 := hbt x h
            exact ⟨h1.1, by omega⟩
        have hfR : (b :: t).filter (fun x => x.row == ((R : Nat) : Int)) = [] := by
          apply List.filter_eq_nil_iff.mpr
          intro x hx
          simp only [beq_iff_eq]
          have := hall x hx
          omega
        rw [hfR, ih (b :: t) hp hall]
        simp

theorem flatMap_range_eq_single {α : Type} (f : Nat → List α) :
    ∀ C k : Nat, k < C → (∀ c, c < C → c ≠ k → f c = []) →
      (List.range C).flatMap f = f k := by
  intro C
  induction C with
  | zero => intro k hk _; omega
  | succ C ih =>
    intro k hk h0
    rw [List.range_succ, List.flatMap_append]
    simp only [List.flatMap_cons, List.flatMap_nil, List.append_nil]
    by_cases hkC : k = C
    · have hnil : (List.range C).flatMap f = (List.range C).flatMap (fun _ => ([] : List α)) := by
        apply List.flatMap_congr
        intro c hc
        have hcC := List.mem_range.mp hc
        exact h0 c (by omega) (by omega)
      rw [hnil, hkC]
      simp
    · have hkC' : k < C := by omega
      rw [ih k hkC' (fun c hc hne => h0 c (by omega) hne), h0 C (by omega) (by omega)]
      simp

theorem mem_remainingBlocks {grid : List (List Block)} {ids : List String} {b : Block}
    (h : b ∈ remainingBlocks grid ids) :
    b ∈ grid.flatten ∧ ids.contains b.id = false := by
  unfold remainingBlocks at h
  refine ⟨List.mem_of_mem_filter h, ?_⟩
  have := List.of_mem_filter h
  simpa using this

theorem clearAndCompact_flatten (grid : List (List Block)) (ids : List String) :
    (clearAndCompact grid ids).flatten
      = (List.range GRID_ROWS).flatMap (fun r =>
          (List.range GRID_COLS).flatMap (fun c =>
            (gravityColumn (remainingBlocks grid ids) (c : Int)).filter
              (fun b => b.row == (r : Int)))) := by
  unfold clearAndCompact
  rw [flatten_filter_not_isEmpty]
  exact (List.flatMap_def _ _).symm

theorem clearAndCompact_filter_col (grid : List (List Block)) (ids : List String) (k : Nat)
    (hk : k < GRID_COLS)
    (hlen : ((remainingBlocks grid ids).filter (fun b => b.col == (k : Int))).length
              ≤ GRID_ROWS) :
    (clearAndCompact grid ids).flatten.filter (fun b => b.col == (k : Int))
      = (gravityColumn (remainingBlocks grid ids) (k : Int)).reverse := by
  rw [clearAndCompact_flatten, List.filter_flatMap]
  have hinner : ∀ r ∈ List.range GRID_ROWS,
      ((List.range GRID_COLS).flatMap (fun c =>
          (gravityColumn (remainingBlocks grid ids) (c : Int)).filter
            (fun b => b.row == (r : Int)))).filter (fun b => b.col == (k : Int))
        = (gravityColumn (remainingBlocks grid ids) (k : Int)).filter
            (fun b => b.row == (r : Int)) := by
    intro r _
    rw [List.filter_flatMap]
    rw [flatMap_range_eq_single _ GRID_COLS k hk ?_]
    · apply List.filter_eq_self.mpr
      intro b hb
      have hc := mem_gravityColumn_col (List.mem_of_mem_filter hb)
      simp [beq_iff_eq, hc]
    · intro c _ hck
      apply List.filter_eq_nil_iff.mpr
      intro b hb
      have hc := mem_gravityColumn_col (List.mem_of_mem_filter hb)
      simp only [beq_iff_eq, hc]
      intro hc'
      exact hck (by exact_mod_cast hc')
  rw [List.flatMap_congr hinner]
  apply flatMap_range_filter_row GRID_ROWS _ (gravityColumn_pairwise _ _)
  intro b hb
  have h1 := mem_gravityColumn_row hb
  constructor
  · omega
  · omega

theorem mem_clearAndCompact {grid : List (List Block)} {ids : List String} {b : Block}
    (h : b ∈ (clearAndCompact grid ids).flatten) :
    ∃ c, c < GRID_COLS ∧ b ∈ gravityColumn (remainingBlocks grid ids) (c : Int) := by
  rw [clearAndCompact_flatten] at h
  rcases List.mem_flatMap.mp h with ⟨r, _, h2⟩
  rcases List.mem_flatMap.mp h2 with ⟨c, hc, h3⟩
  exact ⟨c, List.mem_range.mp hc, List.mem_of_mem_filter h3⟩

/-- Every block of the post-clear grid descends from a surviving block: same
id, value and column, and its id is not among the cleared ids. -/
theorem clearAndCompact_block_origin {grid : List (List Block)} {ids : List String} {b : Block}
    (h : b ∈ (clearAndCompact grid ids).flatten) :
    ∃ b' ∈ remainingBlocks grid ids, b'.id = b.id ∧ b'.value = b.value ∧ b'.col = b.col := by
  rcases mem_clearAndCompact h with ⟨c, _, hg⟩
  have hs : strip b ∈ (gravityColumn (remainingBlocks grid ids) (c : Int)).map strip :=
    mem_map_strip hg
  have hs' := (gravityColumn_map_strip (remainingBlocks grid ids) (c : Int)).mem_iff.mp hs
  rcases of_mem_map_strip hs' with ⟨b', hb', hid, hval, hcol⟩
  exact ⟨b', List.mem_of_mem_filter hb', hid, hval, hcol⟩

theorem clearAndCompact_id_not_cleared {grid : List (List Block)} {ids : List String} {b : Block}
    (h : b ∈ (clearAndCompact grid ids).flatten) :
    ids.contains b.id = false := by
  rcases clearAndCompact_block_origin h with ⟨b', hb', hid, _, _⟩
  have := (mem_remainingBlocks hb').2
  rw [← hid]
  exact this

/-- Every surviving block is present in the post-clear grid with the same id,
value and column. -/
theorem remaining_mem_clearAndCompact {grid : List (List Block)} {ids : List String} {b : Block}
    (hb : b ∈ remainingBlocks grid ids)
    (hcol : ∃ k, k < GRID_COLS ∧ b.col = (k : Int))
    (hlen : ∀ k, k < GRID_COLS →
      ((remainingBlocks grid ids).filter (fun x => x.col == (k : Int))).length ≤ GRID_ROWS) :
    ∃ b' ∈ (clearAndCompact grid ids).flatten,
      b'.id = b.id ∧ b'.value = b.value ∧ b'.col = b.col := by
  rcases hcol with ⟨k, hk, hbc⟩
  have hbf : b ∈ (remainingBlocks grid ids).filter (fun x => x.col == (k : Int)) :=
    List.mem_filter.mpr ⟨hb, by simp [beq_iff_eq, hbc]⟩
  have hs : strip b ∈ ((remainingBlocks grid ids).filter (fun x => x.col == (k : Int))).map strip :=
    mem_map_strip hbf
  have hs' := (gravityColumn_map_strip (remainingBlocks grid ids) (k : Int)).symm.mem_iff.mp hs
  rcases of_mem_map_strip hs' with ⟨b', hb', hid, hval, hcol'⟩
  refine ⟨b', ?_, hid, hval, hcol'⟩
  have hmem : b' ∈ (clearAndCompact grid ids).flatten.filter (fun x => x.col == (k : Int)) := by
    rw [clearAndCompact_filter_col grid ids k hk (hlen k hk)]
    exact List.mem_reverse.mpr hb'
  exact List.mem_of_mem_filter hmem

/-! ### Helper lemmas about the state-level operations -/

theorem addNewRow_proj (F : Nat → String × Nat) (s : GameState) :
    (addNewRow F s).score = s.score ∧ (addNewRow F s).selectedIds = s.selectedIds ∧
      (addNewRow F s).combo = s.combo ∧ (addNewRow F s).mode = s.mode ∧
      (addNewRow F s).target = s.target ∧ (addNewRow F s).timeLeft = s.timeLeft ∧
      (addNewRow F s).isPaused = s.isPaused := by
  unfold addNewRow
  split <;> exact ⟨rfl, rfl, rfl, rfl, rfl, rfl, rfl⟩

/-- Every block of the grid after `addNewRow` either descends (id, value and
column unchanged) from a block already on the grid, or belongs to the freshly
created bottom row. -/
theorem mem_addNewRow_grid {F : Nat → String × Nat} {s : GameState} {b : Block}
    (h : b ∈ (addNewRow F s).grid.flatten) :
    (∃ b0 ∈ s.grid.flatten, b0.id = b.id ∧ b0.value = b.value ∧ b0.col = b.col)
      ∨ (∃ c, c < GRID_COLS ∧ b = createBlock (F c).1 (F c).2 ((GRID_ROWS : Int) - 1) (c : Int)) := by
  unfold addNewRow at h
  split at h
  · exact Or.inl ⟨b, h, rfl, rfl, rfl⟩
  · rw [List.flatten_append] at h
    rcases List.mem_append.mp h with h' | h'
    · rw [← List.map_flatten] at h'
      rcases List.mem_map.mp h' with ⟨b0, hb0, he⟩
      exact Or.inl ⟨b0, hb0, by rw [← he], by rw [← he], by rw [← he]⟩
    · simp only [List.flatten_cons, List.flatten_nil, List.append_nil] at h'
      rcases List.mem_map.mp h' with ⟨c, hc, he⟩
      exact Or.inr ⟨c, List.mem_range.mp hc, he.symm⟩

/-- Every block on the grid survives `addNewRow` with id, value and column
unchanged (its row may shift). -/
theorem addNewRow_grid_sup {F : Nat → String × Nat} {s : GameState} {b0 : Block}
    (h : b0 ∈ s.grid.flatten) :
    ∃ b ∈ (addNewRow F s).grid.flatten, b.id = b0.id ∧ b.value = b0.value ∧ b.col = b0.col := by
  unfold addNewRow
  split
  · exact ⟨b0, h, rfl, rfl, rfl⟩
  · refine ⟨{ b0 with row := b0.row - 1 }, ?_, rfl, rfl, rfl⟩
    rw [List.flatten_append, ← List.map_flatten]
    exact List.mem_append_left _ (List.mem_map_of_mem _ h)

theorem checkSum_success (tNew : Nat) (F : Nat → String × Nat) (s : GameState)
    (h1 : selectionSum s = s.target) (h2 : s.target ≠ 0) :
    checkSum tNew F s =
      (if s.mode = GameMode.classic then
        addNewRow F { s with
          score := s.score + s.target * (selectedBlocks s).length * s.combo,
          grid := clearAndCompact s.grid s.selectedIds,
          selectedIds := [],
          target := tNew }
      else
        { s with
          score := s.score + s.target * (selectedBlocks s).length * s.combo,
          grid := clearAndCompact s.grid s.selectedIds,
          selectedIds := [],
          target := tNew,
          timeLeft := TIME_LIMIT,
          combo := min (s.combo + 1) 5 }) := by
  unfold checkSum
  unfold selectionSum at h1
  rw [if_pos ⟨h1, h2⟩]

theorem checkSum_bust (tNew : Nat) (F : Nat → String × Nat) (s : GameState)
    (h : s.target < selectionSum s) :
    checkSum tNew F s = { s with selectedIds := [], combo := 1 } := by
  unfold checkSum
  unfold selectionSum at h
  have hne : ¬(((selectedBlocks s).map (fun b => b.value)).sum = s.target ∧ s.target ≠ 0) := by
    intro hc
    omega
  rw [if_neg hne, if_pos h]

theorem checkSum_lt (tNew : Nat) (F : Nat → String × Nat) (s : GameState)
    (h : selectionSum s < s.target) :
    checkSum tNew F s = s := by
  unfold checkSum
  unfold selectionSum at h
  have hne : ¬(((selectedBlocks s).map (fun b => b.value)).sum = s.target ∧ s.target ≠ 0) := by
    intro hc
    omega
  rw [if_neg hne, if_neg (by omega)]

/-- In the grid representation actually built by the engine, the blocks of one
row-list all carry the same `row` coordinate (the `initialGrid` rows, the
shifted rows of `addNewRow` and the `newGrid[newRow]` buckets of
`clearAndCompact` are all built that way). -/
def rowAligned (g : List (List Block)) : Prop :=
  ∀ row ∈ g, ∀ b ∈ row, ∀ b' ∈ row, b.row = b'.row

instance (g : List (List Block)) : Decidable (rowAligned g) := by
  unfold rowAligned
  infer_instance

/-! ### Claim theorems -/

/-- C2: on a (row-aligned) grid with a block in row 0, `addNewRow` leaves the
grid unchanged and sets `gameOver`; on a grid with no block in row 0, it
decrements every block's row by exactly 1 and appends a fully populated fresh
row of `GRID_COLS` blocks at row `GRID_ROWS - 1`, leaving every existing
block's id, value and col unchanged. -/
theorem addNewRow_spec (F : Nat → String × Nat) (s : GameState) (hal : rowAligned s.grid) :
    ((∃ b ∈ s.grid.flatten, b.row = 0) → addNewRow F s = { s with gameOver := true })
    ∧ ((∀ b ∈ s.grid.flatten, b.row ≠ 0) →
        (addNewRow F s).grid.flatten
            = s.grid.flatten.map (fun b => { b with row := b.row - 1 }) ++ newRowBlocks F
        ∧ (newRowBlocks F).length = GRID_COLS
        ∧ (∀ b ∈ newRowBlocks F, b.row = (GRID_ROWS : Int) - 1)
        ∧ (newRowBlocks F).map (fun b => b.col) = (List.range GRID_COLS).map (fun c => (c : Int))
        ∧ (addNewRow F s).gameOver = s.gameOver) := by
  constructor
  · rintro ⟨b, hbf, hb0⟩
    have hany : s.grid.any rowOccupiesTop = true := by
      rcases List.mem_flatten.mp hbf with ⟨row, hrow, hbr⟩
      apply List.any_eq_true.mpr
      refine ⟨row, hrow, ?_⟩
      cases row with
      | nil => cases hbr
      | cons x t =>
        have hx : x.row = b.row := hal _ hrow x (List.mem_cons_self x t) b hbr
        simp [rowOccupiesTop, hx, hb0]
    unfold addNewRow
    rw [if_pos hany]
  · intro hno
    have hany : ¬(s.grid.any rowOccupiesTop = true) := by
      intro hc
      rcases List.any_eq_true.mp hc with ⟨row, hrow, htop⟩
      cases row with
      | nil => simp [rowOccupiesTop] at htop
      | cons x t =>
        have hx : x.row = 0 := by simpa [rowOccupiesTop] using htop
        exact hno x (List.mem_flatten.mpr ⟨x :: t, hrow, List.mem_cons_self x t⟩) hx
    refine ⟨?_, ?_, ?_, ?_, ?_⟩
    · unfold addNewRow
      rw [if_neg hany]
      simp only [List.flatten_append, List.flatten_cons, List.flatten_nil, List.append_nil,
        ← List.map_flatten]
    · simp [newRowBlocks]
    · intro b hb
      rcases List.mem_map.mp hb with ⟨c, _, he⟩
      rw [← he]
      rfl
    · unfold newRowBlocks
      rw [List.map_map]
      rfl
    · unfold addNewRow
      rw [if_neg hany]

/-- A classic-mode state whose grid has its top row occupied. -/
def fullTopState : GameState :=
  { grid := [[⟨"a", 5, 0, 0⟩, ⟨"b", 3, 0, 1⟩]], target := 8, selectedIds := [],
    score := 40, gameOver := false, isPaused := false, mode := GameMode.classic,
    timeLeft := 10, combo := 1 }

theorem addNewRow_spec_witness :
    (rowAligned fullTopState.grid ∧ ∃ b ∈ fullTopState.grid.flatten, b.row = 0)
    ∧ addNewRow (fun c => ("n", c + 1)) fullTopState = { fullTopState with gameOver := true } :=
  ⟨⟨by decide, by decide⟩,
    (addNewRow_spec (fun c => ("n", c + 1)) fullTopState (by decide)).1 (by decide)⟩

/-- C4: whenever the selected values sum strictly above the target, the
evaluation step resets the selection to empty and the combo to 1, leaving the
grid and the score unchanged. -/
theorem bust_eval_spec (tNew : Nat) (F : Nat → String × Nat) (s : GameState)
    (h : s.target < selectionSum s) :
    (checkSum tNew F s).selectedIds = [] ∧ (checkSum tNew F s).combo = 1
    ∧ (checkSum tNew F s).grid = s.grid ∧ (checkSum tNew F s).score = s.score := by
  rw [checkSum_bust tNew F s h]
  exact ⟨rfl, rfl, rfl, rfl⟩

/-- A state whose selection (3 + 4 = 7) overshoots the target 5. -/
def bustState : GameState :=
  { grid := [[⟨"a", 3, 9, 0⟩, ⟨"b", 4, 9, 1⟩]], target := 5, selectedIds := ["a", "b"],
    score := 12, gameOver := false, isPaused := false, mode := GameMode.time,
    timeLeft := 7, combo := 3 }

theorem bust_eval_spec_witness :
    bustState.target < selectionSum bustState
    ∧ ((checkSum 6 (fun _ => ("z", 1)) bustState).selectedIds = []
      ∧ (checkSum 6 (fun _ => ("z", 1)) bustState).combo = 1
      ∧ (checkSum 6 (fun _ => ("z", 1)) bustState).grid = bustState.grid
      ∧ (checkSum 6 (fun _ => ("z", 1)) bustState).score = bustState.score) :=
  ⟨by decide, bust_eval_spec 6 (fun _ => ("z", 1)) bustState (by decide)⟩

/-- C9: in a running time-mode state, the tick on which the countdown reaches
zero (i.e. from `timeLeft = 1`, which the decrement would take to 0) performs
`addNewRow` (with its usual overflow check), resets `combo` to 1 and resets
`timeLeft` to `TIME_LIMIT`; any other tick just decrements `timeLeft` by 1. -/
theorem timer_tick_spec (F : Nat → String × Nat) (s : GameState)
    (hm : s.mode = GameMode.time) (hov : s.gameOver = false) (hp : s.isPaused = false) :
    (s.timeLeft = 1 → tick F s = { addNewRow F s with combo := 1, timeLeft := TIME_LIMIT })
    ∧ (2 ≤ s.timeLeft → tick F s = { s with timeLeft := s.timeLeft - 1 }) := by
  unfold tick
  rw [if_pos ⟨hm, hov, hp⟩]
  constructor
  · intro h1
    rw [if_pos (by omega)]
  · intro h2
    rw [if_neg (by omega)]

/-- A running time-mode state in the middle of its countdown. -/
def midCountdownState : GameState :=
  { grid := [[⟨"a", 3, 9, 0⟩]], target := 5, selectedIds := [], score := 0,
    gameOver := false, isPaused := false, mode := GameMode.time, timeLeft := 4,
    combo := 2 }

theorem timer_tick_spec_witness :
    (midCountdownState.mode = GameMode.time ∧ 2 ≤ midCountdownState.timeLeft)
    ∧ tick (fun c => ("n", c + 1)) midCountdownState
      = { midCountdownState with timeLeft := midCountdownState.timeLeft - 1 } :=
  ⟨⟨by decide, by decide⟩,
    (timer_tick_spec (fun c => ("n", c + 1)) midCountdownState
      (by decide) (by decide) (by decide)).2 (by decide)⟩

/-- C5 (counterexample): on the non-empty one-block grid `[[{a,5}]]`, the
random draws `count = 2` (a legal draw from `{2,3,4}`) and the identity
shuffle (a legal permutation of the flattened grid) make `generateTarget`
return 5, yet no selection of 2 to 4 distinct blocks of that grid can sum to
anything: the grid holds a single block. -/
theorem target_reachability_counterexample :
    (2 ≤ 2 ∧ 2 ≤ 4
      ∧ ([⟨"a", 5, 9, 0⟩] : List Block).Perm ([[⟨"a", 5, 9, 0⟩]] : List (List Block)).flatten
      ∧ ([[⟨"a", 5, 9, 0⟩]] : List (List Block)).flatten ≠ [])
    ∧ ¬∃ l : List Block, List.Subperm l ([[⟨"a", 5, 9, 0⟩]] : List (List Block)).flatten
        ∧ 2 ≤ l.length ∧ l.length ≤ 4
        ∧ (l.map (fun b => b.value)).sum = generateTarget [[⟨"a", 5, 9, 0⟩]] 2 [⟨"a", 5, 9, 0⟩] := by
  refine ⟨⟨by decide, by decide, by decide, by decide⟩, ?_⟩
  rintro ⟨l, hsub, h2, _, _⟩
  have hle := hsub.length_le
  simp only [List.flatten_cons, List.flatten_nil, List.append_nil, List.length_cons,
    List.length_nil] at hle
  omega

/-- C5 (amended): immediately after `generateTarget(grid)` on a grid holding
at least **two** blocks, some selection of 2 to 4 distinct blocks of that grid
sums to the returned target.  (On a one-block grid the source's
`shuffled.slice(0, count)` degenerates to the single block, so only a
singleton witness exists — see the counterexample.) -/
theorem target_reachable_of_two_blocks (grid : List (List Block)) (count : Nat)
    (shuffled : List Block) (h2 : 2 ≤ grid.flatten.length)
    (hperm : shuffled.Perm grid.flatten) (hc2 : 2 ≤ count) (hc4 : count ≤ 4) :
    ∃ l : List Block, List.Subperm l grid.flatten ∧ 2 ≤ l.length ∧ l.length ≤ 4
      ∧ (l.map (fun b => b.value)).sum = generateTarget grid count shuffled := by
  refine ⟨shuffled.take count, ?_, ?_, ?_, ?_⟩
  · exact ((List.take_sublist count shuffled).subperm).trans hperm.subperm
  · rw [List.length_take, hperm.length_eq]
    omega
  · rw [List.length_take]
    omega
  · unfold generateTarget
    rw [if_neg ?_]
    intro hc
    have : grid.flatten = [] := List.isEmpty_iff.mp hc
    rw [this] at h2
    simp at h2

theorem checkSum_noop (tNew : Nat) (F : Nat → String × Nat) (s : GameState)
    (h1 : ¬(selectionSum s = s.target ∧ s.target ≠ 0))
    (h2 : ¬(s.target < selectionSum s)) :
    checkSum tNew F s = s := by
  unfold checkSum
  unfold selectionSum at h1 h2
  rw [if_neg h1, if_neg h2]

theorem checkSum_mode (tNew : Nat) (F : Nat → String × Nat) (s : GameState) :
    (checkSum tNew F s).mode = s.mode := by
  by_cases h1 : selectionSum s = s.target ∧ s.target ≠ 0
  · rw [checkSum_success tNew F s h1.1 h1.2]
    by_cases hm : s.mode = GameMode.classic
    · rw [if_pos hm]
      exact (addNewRow_proj _ _).2.2.2.1
    · rw [if_neg hm]
  · by_cases h2 : s.target < selectionSum s
    · rw [checkSum_bust tNew F s h2]
    · rw [checkSum_noop tNew F s h1 h2]

theorem checkSum_score_ge (tNew : Nat) (F : Nat → String × Nat) (s : GameState) :
    s.score ≤ (checkSum tNew F s).score := by
  by_cases h1 : selectionSum s = s.target ∧ s.target ≠ 0
  · rw [checkSum_success tNew F s h1.1 h1.2]
    by_cases hm : s.mode = GameMode.classic
    · rw [if_pos hm, (addNewRow_proj _ _).1]
      exact Nat.le_add_right _ _
    · rw [if_neg hm]
      exact Nat.le_add_right _ _
  · by_cases h2 : s.target < selectionSum s
    · rw [checkSum_bust tNew F s h2]
    · rw [checkSum_noop tNew F s h1 h2]

theorem checkSum_combo_cases (tNew : Nat) (F : Nat → String × Nat) (s : GameState) :
    (checkSum tNew F s).combo = s.combo ∨ (checkSum tNew F s).combo = 1
      ∨ (checkSum tNew F s).combo = min (s.combo + 1) 5 := by
  by_cases h1 : selectionSum s = s.target ∧ s.target ≠ 0
  · rw [checkSum_success tNew F s h1.1 h1.2]
    by_cases hm : s.mode = GameMode.classic
    · rw [if_pos hm]
      exact Or.inl (addNewRow_proj _ _).2.2.1
    · rw [if_neg hm]
      exact Or.inr (Or.inr rfl)
  · by_cases h2 : s.target < selectionSum s
    · rw [checkSum_bust tNew F s h2]
      exact Or.inr (Or.inl rfl)
    · rw [checkSum_noop tNew F s h1 h2]
      exact Or.inl rfl

theorem checkSum_combo_classic (tNew : Nat) (F : Nat → String × Nat) (s : GameState)
    (hm : s.mode = GameMode.classic) :
    (checkSum tNew F s).combo = s.combo ∨ (checkSum tNew F s).combo = 1 := by
  by_cases h1 : selectionSum s = s.target ∧ s.target ≠ 0
  · rw [checkSum_success tNew F s h1.1 h1.2, if_pos hm]
    exact Or.inl (addNewRow_proj _ _).2.2.1
  · by_cases h2 : s.target < selectionSum s
    · rw [checkSum_bust tNew F s h2]
      exact Or.inr rfl
    · rw [checkSum_noop tNew F s h1 h2]
      exact Or.inl rfl

theorem toggleSelect_mode (i : String) (tNew : Nat) (F : Nat → String × Nat) (s : GameState) :
    (toggleSelect i tNew F s).mode = s.mode := by
  unfold toggleSelect
  split
  · rfl
  · exact checkSum_mode tNew F { s with selectedIds := toggleId i s.selectedIds }

theorem toggleSelect_score_ge (i : String) (tNew : Nat) (F : Nat → String × Nat)
    (s : GameState) : s.score ≤ (toggleSelect i tNew F s).score := by
  unfold toggleSelect
  split
  · exact le_refl _
  · exact checkSum_score_ge tNew F { s with selectedIds := toggleId i s.selectedIds }

theorem toggleSelect_combo_cases (i : String) (tNew : Nat) (F : Nat → String × Nat)
    (s : GameState) :
    (toggleSelect i tNew F s).combo = s.combo ∨ (toggleSelect i tNew F s).combo = 1
      ∨ (toggleSelect i tNew F s).combo = min (s.combo + 1) 5 := by
  unfold toggleSelect
  split
  · exact Or.inl rfl
  · exact checkSum_combo_cases tNew F { s with selectedIds := toggleId i s.selectedIds }

theorem tick_mode (F : Nat → String × Nat) (s : GameState) : (tick F s).mode = s.mode := by
  unfold tick
  split
  · split
    · exact (addNewRow_proj _ _).2.2.2.1
    · rfl
  · rfl

theorem tick_score (F : Nat → String × Nat) (s : GameState) : (tick F s).score = s.score := by
  unfold tick
  split
  · split
    · exact (addNewRow_proj _ _).1
    · rfl
  · rfl

theorem tick_combo_cases (F : Nat → String × Nat) (s : GameState) :
    (tick F s).combo = s.combo ∨ (tick F s).combo = 1 := by
  unfold tick
  split
  · split
    · exact Or.inr rfl
    · exact Or.inl rfl
  · exact Or.inl rfl

theorem step_mode (e : Ev) (s : GameState) : (step e s).mode = s.mode := by
  cases e with
  | select i tNew F => exact toggleSelect_mode i tNew F s
  | timer F => exact tick_mode F s
  | pauseBtn => rfl

theorem step_score_ge (e : Ev) (s : GameState) : s.score ≤ (step e s).score := by
  cases e with
  | select i tNew F => exact toggleSelect_score_ge i tNew F s
  | timer F => exact le_of_eq (tick_score F s).symm
  | pauseBtn => exact le_refl _

theorem step_combo_cases (e : Ev) (s : GameState) :
    (step e s).combo = s.combo ∨ (step e s).combo = 1
      ∨ (step e s).combo = min (s.combo + 1) 5 := by
  cases e with
  | select i tNew F => exact toggleSelect_combo_cases i tNew F s
  | timer F =>
    rcases tick_combo_cases F s with h | h
    · exact Or.inl h
    · exact Or.inr (Or.inl h)
  | pauseBtn => exact Or.inl rfl

theorem reachable_mode {m : GameMode} {s : GameState} (h : Reachable m s) : s.mode = m := by
  induction h with
  | start tgt g => rfl
  | next e h ih => rw [step_mode]; exact ih

/-- C1: in a running state whose selected values sum exactly to a non-zero
target, the evaluation step adds exactly `target × (number of selected
blocks) × combo` to the score, removes exactly the selected blocks from the
grid (every selected id is gone, every surviving block keeps its id, value
and column) and resets the selection to empty. -/
theorem success_eval_spec (tNew : Nat) (F : Nat → String × Nat) (s : GameState)
    (hpause : s.isPaused = false) (hover : s.gameOver = false)
    (hsum : selectionSum s = s.target) (ht : s.target ≠ 0)
    (hcols : ∀ b ∈ s.grid.flatten, ∃ k, k < GRID_COLS ∧ b.col = (k : Int))
    (hlen : ∀ k, k < GRID_COLS →
      ((remainingBlocks s.grid s.selectedIds).filter
        (fun x => x.col == (k : Int))).length ≤ GRID_ROWS)
    (hF : ∀ c, c < GRID_COLS → s.selectedIds.contains (F c).1 = false) :
    (checkSum tNew F s).score = s.score + s.target * (selectedBlocks s).length * s.combo
    ∧ (checkSum tNew F s).selectedIds = []
    ∧ (∀ b ∈ (checkSum tNew F s).grid.flatten, s.selectedIds.contains b.id = false)
    ∧ (∀ b ∈ remainingBlocks s.grid s.selectedIds,
        ∃ b' ∈ (checkSum tNew F s).grid.flatten,
          b'.id = b.id ∧ b'.value = b.value ∧ b'.col = b.col) := by
  rw [checkSum_success tNew F s hsum ht]
  by_cases hm : s.mode = GameMode.classic
  · rw [if_pos hm]
    refine ⟨(addNewRow_proj _ _).1, (addNewRow_proj _ _).2.1, ?_, ?_⟩
    · intro b hb
      rcases mem_addNewRow_grid hb with ⟨b0, hb0, hid, _, _⟩ | ⟨c, hc, he⟩
      · rw [← hid]
        exact clearAndCompact_id_not_cleared hb0
      · rw [he]
        exact hF c hc
    · intro b hb
      rcases remaining_mem_clearAndCompact hb (hcols b (mem_remainingBlocks hb).1) hlen
        with ⟨b', hb', hid, hval, hcol⟩
      rcases addNewRow_grid_sup (F := F)
        (s := { s with
          score := s.score + s.target * (selectedBlocks s).length * s.combo,
          grid := clearAndCompact s.grid s.selectedIds,
          selectedIds := [],
          target := tNew }) hb' with ⟨b'', hb'', hid', hval', hcol'⟩
      exact ⟨b'', hb'', by rw [hid', hid], by rw [hval', hval], by rw [hcol', hcol]⟩
  · rw [if_neg hm]
    refine ⟨rfl, rfl, ?_, ?_⟩
    · intro b hb
      exact clearAndCompact_id_not_cleared hb
    · intro b hb
      exact remaining_mem_clearAndCompact hb (hcols b (mem_remainingBlocks hb).1) hlen

/-- The spec's success example: blocks of values 3, 4 and 2 summing to the
target 9, all three selected. -/
def successState : GameState :=
  { grid := [[⟨"a", 3, 9, 0⟩, ⟨"b", 4, 9, 1⟩, ⟨"c", 2, 9, 2⟩]], target := 9,
    selectedIds := ["a", "b", "c"], score := 10, gameOver := false, isPaused := false,
    mode := GameMode.time, timeLeft := 6, combo := 2 }

theorem success_eval_spec_witness :
    (successState.isPaused = false ∧ selectionSum successState = successState.target
      ∧ successState.target ≠ 0)
    ∧ ((checkSum 7 (fun _ => ("z", 1)) successState).score
          = successState.score
            + successState.target * (selectedBlocks successState).length * successState.combo
      ∧ (checkSum 7 (fun _ => ("z", 1)) successState).selectedIds = []
      ∧ (∀ b ∈ (checkSum 7 (fun _ => ("z", 1)) successState).grid.flatten,
          successState.selectedIds.contains b.id = false)
      ∧ (∀ b ∈ remainingBlocks successState.grid successState.selectedIds,
          ∃ b' ∈ (checkSum 7 (fun _ => ("z", 1)) successState).grid.flatten,
            b'.id = b.id ∧ b'.value = b.value ∧ b'.col = b.col)) :=
  ⟨⟨by decide, by decide, by decide⟩,
    success_eval_spec 7 (fun _ => ("z", 1)) successState (by decide) (by decide) (by decide)
      (by decide) (by decide) (by decide) (by decide)⟩

/-- C3: clearing removes exactly the blocks whose ids are in the cleared set,
and each column of the resulting grid, read top to bottom, is the reversal of
the stable descending-by-original-row ordering of that column's survivors
reassigned consecutive rows from `GRID_ROWS - 1` upward; that ordering is a
permutation of the survivors and is sorted by descending original row. -/
theorem clear_gravity_spec (grid : List (List Block)) (ids : List String) (k : Nat)
    (hk : k < GRID_COLS)
    (hlen : ((remainingBlocks grid ids).filter (fun b => b.col == (k : Int))).length
              ≤ GRID_ROWS) :
    (clearAndCompact grid ids).flatten.filter (fun b => b.col == (k : Int))
        = (assignRows
            (sortByRowDesc ((remainingBlocks grid ids).filter (fun b => b.col == (k : Int))))
            ((GRID_ROWS : Int) - 1)).reverse
    ∧ (sortByRowDesc ((remainingBlocks grid ids).filter (fun b => b.col == (k : Int)))).Perm
        ((remainingBlocks grid ids).filter (fun b => b.col == (k : Int)))
    ∧ (sortByRowDesc
        ((remainingBlocks grid ids).filter (fun b => b.col == (k : Int)))).Pairwise rowGE :=
  ⟨clearAndCompact_filter_col grid ids k hk hlen, sortByRowDesc_perm _, sortByRowDesc_sorted _⟩

theorem clear_gravity_spec_witness :
    (0 < GRID_COLS
      ∧ ((remainingBlocks [[⟨"p", 1, 5, 0⟩], [⟨"q", 2, 7, 0⟩], [⟨"r", 3, 9, 0⟩]] ["q"]).filter
          (fun b => b.col == (0 : Int))).length ≤ GRID_ROWS)
    ∧ ((clearAndCompact [[⟨"p", 1, 5, 0⟩], [⟨"q", 2, 7, 0⟩], [⟨"r", 3, 9, 0⟩]] ["q"]).flatten.filter
          (fun b => b.col == ((0 : Nat) : Int))
        = (assignRows
            (sortByRowDesc
              ((remainingBlocks [[⟨"p", 1, 5, 0⟩], [⟨"q", 2, 7, 0⟩], [⟨"r", 3, 9, 0⟩]] ["q"]).filter
                (fun b => b.col == ((0 : Nat) : Int))))
            ((GRID_ROWS : Int) - 1)).reverse
      ∧ (sortByRowDesc
          ((remainingBlocks [[⟨"p", 1, 5, 0⟩], [⟨"q", 2, 7, 0⟩], [⟨"r", 3, 9, 0⟩]] ["q"]).filter
            (fun b => b.col == ((0 : Nat) : Int)))).Perm
          ((remainingBlocks [[⟨"p", 1, 5, 0⟩], [⟨"q", 2, 7, 0⟩], [⟨"r", 3, 9, 0⟩]] ["q"]).filter
            (fun b => b.col == ((0 : Nat) : Int)))
      ∧ (sortByRowDesc
          ((remainingBlocks [[⟨"p", 1, 5, 0⟩], [⟨"q", 2, 7, 0⟩], [⟨"r", 3, 9, 0⟩]] ["q"]).filter
            (fun b => b.col == ((0 : Nat) : Int)))).Pairwise rowGE) :=
  ⟨⟨by decide, by decide⟩,
    clear_gravity_spec [[⟨"p", 1, 5, 0⟩], [⟨"q", 2, 7, 0⟩], [⟨"r", 3, 9, 0⟩]] ["q"] 0
      (by decide) (by decide)⟩

/-- The spec's gravity example, fully evaluated: a column with blocks at rows
5, 7, 9 whose row-7 block is cleared ends with exactly the former row-5 block
at row 8 sitting above the former row-9 block at row 9. -/
theorem clear_gravity_example :
    clearAndCompact [[⟨"p", 1, 5, 0⟩], [⟨"q", 2, 7, 0⟩], [⟨"r", 3, 9, 0⟩]] ["q"]
      = [[⟨"p", 1, 8, 0⟩], [⟨"r", 3, 9, 0⟩]] := by
  decide

theorem target_reachable_of_two_blocks_witness :
    (2 ≤ ([[⟨"a", 5, 9, 0⟩, ⟨"b", 2, 9, 1⟩]] : List (List Block)).flatten.length
      ∧ ([⟨"b", 2, 9, 1⟩, ⟨"a", 5, 9, 0⟩] : List Block).Perm
          ([[⟨"a", 5, 9, 0⟩, ⟨"b", 2, 9, 1⟩]] : List (List Block)).flatten
      ∧ 2 ≤ 3 ∧ 3 ≤ 4)
    ∧ ∃ l : List Block,
        List.Subperm l ([[⟨"a", 5, 9, 0⟩, ⟨"b", 2, 9, 1⟩]] : List (List Block)).flatten
        ∧ 2 ≤ l.length ∧ l.length ≤ 4
        ∧ (l.map (fun b => b.value)).sum
            = generateTarget [[⟨"a", 5, 9, 0⟩, ⟨"b", 2, 9, 1⟩]] 3 [⟨"b", 2, 9, 1⟩, ⟨"a", 5, 9, 0⟩] :=
  ⟨⟨by decide, by decide, by decide, by decide⟩,
    target_reachable_of_two_blocks [[⟨"a", 5, 9, 0⟩, ⟨"b", 2, 9, 1⟩]] 3
      [⟨"b", 2, 9, 1⟩, ⟨"a", 5, 9, 0⟩] (by decide) (by decide) (by decide) (by decide)⟩

/-- C7: in every state reachable within a round, `combo` lies in `[1, 5]`. -/
theorem combo_bounds (m : GameMode) (s : GameState) (h : Reachable m s) :
    1 ≤ s.combo ∧ s.combo ≤ 5 := by
  induction h with
  | start tgt g =>
    refine ⟨le_refl 1, ?_⟩
    show (1 : Nat) ≤ 5
    omega
  | next e h ih =>
    obtain ⟨ih1, ih2⟩ := ih
    rcases step_combo_cases e _ with hc | hc | hc <;> rw [hc] <;> constructor <;> omega

theorem combo_bounds_witness :
    1 ≤ (startState GameMode.time 10 []).combo ∧ (startState GameMode.time 10 []).combo ≤ 5 :=
  combo_bounds GameMode.time (startState GameMode.time 10 []) (Reachable.start 10 [])

/-- C8: over any sequence of in-round events (clicks, ticks, pauses) the
score never decreases. -/
theorem score_monotone (es : List Ev) (s : GameState) : s.score ≤ (run es s).score := by
  induction es generalizing s with
  | nil => exact le_refl _
  | cons e t ih =>
    have h1 := step_score_ge e s
    have h2 := ih (step e s)
    have hrun : run (e :: t) s = run t (step e s) := rfl
    rw [hrun]
    exact le_trans h1 h2

theorem step_combo_classic (e : Ev) (s : GameState) (hm : s.mode = GameMode.classic)
    (hc : s.combo = 1) : (step e s).combo = 1 := by
  cases e with
  | select i tN F =>
    show (toggleSelect i tN F s).combo = 1
    unfold toggleSelect
    split
    · exact hc
    · have hm' : ({ s with selectedIds := toggleId i s.selectedIds } : GameState).mode
          = GameMode.classic := hm
      rcases checkSum_combo_classic tN F { s with selectedIds := toggleId i s.selectedIds } hm'
        with h | h <;> rw [h]
      exact hc
  | timer F =>
    show (tick F s).combo = 1
    unfold tick
    rw [if_neg ?_]
    · exact hc
    · rintro ⟨hmt, -⟩
      rw [hm] at hmt
      cases hmt
  | pauseBtn => exact hc

theorem classic_combo_invariant : ∀ s : GameState, Reachable GameMode.classic s → s.combo = 1 := by
  intro s h
  induction h with
  | start tgt g => rfl
  | next e h ih => exact step_combo_classic e _ (reachable_mode h) ih

/-- C10: within a classic-mode round, `combo` equals 1 in every reachable
state, so every classic-mode success awards exactly
`target × (number of selected blocks)` points. -/
theorem classic_combo_award :
    (∀ s : GameState, Reachable GameMode.classic s → s.combo = 1)
    ∧ (∀ (s : GameState) (i : String) (tN : Nat) (F : Nat → String × Nat),
        Reachable GameMode.classic s → s.gameOver = false → s.isPaused = false →
        selectionSum { s with selectedIds := toggleId i s.selectedIds } = s.target →
        s.target ≠ 0 →
        (toggleSelect i tN F s).score
          = s.score + s.target
              * (selectedBlocks { s with selectedIds := toggleId i s.selectedIds }).length) := by
  constructor
  · exact classic_combo_invariant
  · intro s i tN F hr hov hp hsum ht
    unfold toggleSelect
    rw [if_neg (by rw [hov, hp]; simp)]
    rw [checkSum_success tN F { s with selectedIds := toggleId i s.selectedIds } hsum ht]
    have hm0 : s.mode = GameMode.classic := reachable_mode hr
    have hm' : ({ s with selectedIds := toggleId i s.selectedIds } : GameState).mode
        = GameMode.classic := hm0
    rw [if_pos hm']
    rw [(addNewRow_proj _ _).1]
    have hc : s.combo = 1 := classic_combo_invariant s hr
    show s.score
        + s.target * (selectedBlocks { s with selectedIds := toggleId i s.selectedIds }).length
          * s.combo
      = s.score
        + s.target * (selectedBlocks { s with selectedIds := toggleId i s.selectedIds }).length
    rw [hc, Nat.mul_one]

theorem classic_combo_award_witness :
    (startState GameMode.classic 3 [[⟨"a", 3, 9, 0⟩]]).combo = 1
    ∧ (toggleSelect "a" 7 (fun _ => ("z", 1)) (startState GameMode.classic 3 [[⟨"a", 3, 9, 0⟩]])).score
        = (startState GameMode.classic 3 [[⟨"a", 3, 9, 0⟩]]).score
          + (startState GameMode.classic 3 [[⟨"a", 3, 9, 0⟩]]).target
            * (selectedBlocks { startState GameMode.classic 3 [[⟨"a", 3, 9, 0⟩]] with
                selectedIds :=
                  toggleId "a" (startState GameMode.classic 3 [[⟨"a", 3, 9, 0⟩]]).selectedIds }).length :=
  ⟨classic_combo_award.1 _ (Reachable.start 3 _),
    classic_combo_award.2 _ "a" 7 (fun _ => ("z", 1)) (Reachable.start 3 _) rfl rfl
      (by decide) (by decide)⟩

/-- `selectedIds` only holds ids of blocks present in the grid. -/
def SelWF (s : GameState) : Prop :=
  ∀ i ∈ s.selectedIds, ∃ b ∈ s.grid.flatten, b.id = i

theorem mem_toggleId {x i : String} {l : List String} (h : x ∈ toggleId i l) :
    x ∈ l ∨ x = i := by
  unfold toggleId at h
  split at h
  · exact Or.inl (List.mem_of_mem_filter h)
  · rcases List.mem_append.mp h with h | h
    · exact Or.inl h
    · simp only [List.mem_singleton] at h
      exact Or.inr h

theorem addNewRow_selWF {F : Nat → String × Nat} {s : GameState} (h : SelWF s) :
    SelWF (addNewRow F s) := by
  intro i hi
  rw [(addNewRow_proj F s).2.1] at hi
  rcases h i hi with ⟨b, hb, hbid⟩
  rcases addNewRow_grid_sup (F := F) (s := s) hb with ⟨b', hb', hid, _, _⟩
  exact ⟨b', hb', by rw [hid, hbid]⟩

theorem checkSum_selWF {tNew : Nat} {F : Nat → String × Nat} {s : GameState} (h : SelWF s) :
    SelWF (checkSum tNew F s) := by
  by_cases h1 : selectionSum s = s.target ∧ s.target ≠ 0
  · rw [checkSum_success tNew F s h1.1 h1.2]
    by_cases hm : s.mode = GameMode.classic
    · rw [if_pos hm]
      intro i hi
      rw [(addNewRow_proj _ _).2.1] at hi
      cases hi
    · rw [if_neg hm]
      intro i hi
      cases hi
  · by_cases h2 : s.target < selectionSum s
    · rw [checkSum_bust tNew F s h2]
      intro i hi
      cases hi
    · rw [checkSum_noop tNew F s h1 h2]
      exact h

theorem tick_selWF {F : Nat → String × Nat} {s : GameState} (h : SelWF s) :
    SelWF (tick F s) := by
  unfold tick
  split
  · split
    · exact fun i hi => addNewRow_selWF h i hi
    · exact h
  · exact h

theorem toggleSelect_selWF_of_mem {s : GameState} (b : Block) (hb : b ∈ s.grid.flatten)
    (tN : Nat) (F : Nat → String × Nat) (h : SelWF s) :
    SelWF (toggleSelect b.id tN F s) := by
  unfold toggleSelect
  split
  · exact h
  · apply checkSum_selWF
    intro i hi
    rcases mem_toggleId hi with hmem | heq
    · exact h i hmem
    · exact ⟨b, hb, by rw [heq]⟩

/-- C6 (counterexample): toggling the id "x", which belongs to no block of
the grid, is not a no-op — it lands in `selectedIds`. -/
def foreignToggleState : GameState :=
  { grid := [[⟨"a", 3, 9, 0⟩]], target := 5, selectedIds := [], score := 0,
    gameOver := false, isPaused := false, mode := GameMode.classic, timeLeft := 10, combo := 1 }

theorem foreign_toggle_not_noop :
    (∀ b ∈ foreignToggleState.grid.flatten, b.id ≠ "x")
    ∧ foreignToggleState.gameOver = false ∧ foreignToggleState.isPaused = false
    ∧ (toggleSelect "x" 7 (fun _ => ("z", 1)) foreignToggleState).selectedIds
        ≠ foreignToggleState.selectedIds :=
  ⟨by decide, rfl, rfl, by decide⟩

/-- C6 (amended): toggling an id that belongs to no block of the grid while
running (with the selection sum still below target) appends that id to
`selectedIds` and changes nothing else — it is not a no-op; nevertheless, in
every state reachable when clicks only happen on blocks present in the grid
(which is how the UI drives `handleBlockClick`), `selectedIds` contains only
ids of blocks present in the grid. -/
theorem foreign_toggle_amended :
    (∀ (s : GameState) (i : String) (tN : Nat) (F : Nat → String × Nat),
        s.gameOver = false → s.isPaused = false →
        (∀ b ∈ s.grid.flatten, b.id ≠ i) → s.selectedIds.contains i = false →
        selectionSum s < s.target →
        toggleSelect i tN F s = { s with selectedIds := s.selectedIds ++ [i] })
    ∧ (∀ (m : GameMode) (s : GameState), ReachableUI m s →
        ∀ i ∈ s.selectedIds, ∃ b ∈ s.grid.flatten, b.id = i) := by
  constructor
  · intro s i tN F hov hp hni hnc hlt
    unfold toggleSelect
    rw [if_neg (by rw [hov, hp]; simp)]
    have htog : toggleId i s.selectedIds = s.selectedIds ++ [i] := by
      unfold toggleId
      rw [if_neg (by rw [hnc]; simp)]
    rw [htog]
    apply checkSum_lt
    have hsel : selectedBlocks { s with selectedIds := s.selectedIds ++ [i] }
        = selectedBlocks s := by
      unfold selectedBlocks
      apply List.filter_congr
      intro b hb
      have hbid : b.id ≠ i := hni b hb
      by_cases hbs : b.id ∈ s.selectedIds <;>
        simp [List.contains, List.elem_eq_mem, hbs, hbid]
    show selectionSum { s with selectedIds := s.selectedIds ++ [i] }
        < ({ s with selectedIds := s.selectedIds ++ [i] } : GameState).target
    unfold selectionSum
    rw [hsel]
    exact hlt
  · intro m s h
    induction h with
    | start tgt g =>
      intro i hi
      cases hi
    | select b tN F hb hprev ih => exact toggleSelect_selWF_of_mem b hb tN F ih
    | timer F hprev ih => exact tick_selWF ih
    | pauseBtn hprev ih => exact ih

theorem foreign_toggle_amended_witness :
    (foreignToggleState.gameOver = false
      ∧ (∀ b ∈ foreignToggleState.grid.flatten, b.id ≠ "x")
      ∧ foreignToggleState.selectedIds.contains "x" = false
      ∧ selectionSum foreignToggleState < foreignToggleState.target)
    ∧ toggleSelect "x" 7 (fun _ => ("z", 1)) foreignToggleState
        = { foreignToggleState with selectedIds := foreignToggleState.selectedIds ++ ["x"] }
    ∧ (∀ i ∈ (startState GameMode.time 10 [[⟨"a", 3, 9, 0⟩]]).selectedIds,
        ∃ b ∈ (startState GameMode.time 10 [[⟨"a", 3, 9, 0⟩]]).grid.flatten, b.id = i) :=
  ⟨⟨rfl, by decide, by decide, by decide⟩,
    foreign_toggle_amended.1 foreignToggleState "x" 7 (fun _ => ("z", 1)) rfl rfl
      (by decide) (by decide) (by decide),
    foreign_toggle_amended.2 GameMode.time _ (ReachableUI.start 10 _)⟩

end SumStack
